import Mathlib

/-!
# pi-lights: a verification development of `main.go`

The program drives three LEDs (red = pin 9, yellow = pin 10, green = pin 11).
The embedding below follows `main.go` function by function:

* `getOptions` is the validator, taking the two parsed flag values;
* `flashPin`, `getBoundedRandNum`, `check`, `exitGracefully` and `main` act on
  an explicit `World` (pin levels, pin modes, a trace of effects, and the
  process status);
* the infinite `for` loops of `main` are run for a given number of
  iterations, the random source being an explicit stream of draws.
-/

namespace PiLights

/-! ## Data model -/

/-- The struct `options` of `main.go`; `interval` is a Go `uint8`, held as its value. -/
structure options where
  mode : String
  interval : Nat
deriving DecidableEq, Repr

/-- The Go zero value `options{}`. -/
def options.zero : options := { mode := "", interval := 0 }

/-- The map literal `validModes`, as its list of key/value pairs. -/
def validModes : List (String × Bool) :=
  [("red", true), ("yellow", true), ("green", true), ("random", true)]

/-- The Go conversion `uint8(x)` of an `int`: the low eight bits. -/
def uint8 (x : Int) : Nat := (x % 256).toNat

/-- Message of the error returned for a mode that is not a key of `validModes`. -/
def errInvalidMode : String :=
  "mode can only be one of the following: red,yellow,green,random"

/-- Message of the error returned for an interval out of range. -/
def errInvalidInterval : String :=
  "interval can only be between 0 to 100, for random mode interval must be at least 1."

/-- The function `getOptions` after `flag.Parse()`: `mode` and `interval` are the
values of the two flags. The result is the Go pair `(options, error)`, the error
being `none` for `nil` and `some msg` for `errors.New(msg)`.
In the last branch `0 ≤ interval ≤ 100`, so the product `interval * 100` is at
most `10000` and does not overflow an `int` of either width. -/
def getOptions (mode : String) (interval : Int) : options × Option String :=
  let intervalMin : Int := 0
  let ok := (validModes.lookup mode).isSome
  if !ok then
    (options.zero, some errInvalidMode)
  else
    let intervalMin : Int := if mode = "random" then 1 else intervalMin
    if interval < intervalMin ∨ interval > 100 then
      (options.zero, some errInvalidInterval)
    else
      ({ mode := mode, interval := uint8 (interval * 100) }, none)

/-! ## The world the program acts on -/

/-- One observable effect of the program. -/
inductive Effect where
  /-- The call `rpio.Open()`, with whether it succeeded. -/
  | rpioOpen (succeeded : Bool)
  /-- The deferred call `rpio.Close()`. -/
  | rpioClose
  /-- The call `pin.Output()`. -/
  | output (pin : Nat)
  /-- The call `pin.High()`. -/
  | high (pin : Nat)
  /-- The call `pin.Low()`. -/
  | low (pin : Nat)
  /-- The call `time.Sleep` of so many milliseconds. -/
  | sleep (ms : Nat)
  /-- The call `signal.Notify` and the start of the handler goroutine. -/
  | notify
  /-- Text written to standard output. -/
  | stdout (text : String)
  /-- Text written to standard error. -/
  | stderr (text : String)
  /-- The call `os.Exit(code)`. -/
  | exit (code : Nat)
  /-- A run-time panic. -/
  | panic
deriving DecidableEq, Repr

/-- How far the process got. -/
inductive Status where
  | running
  | exited (code : Nat)
  | panicked
  | returned
deriving DecidableEq, Repr

/-- Pin levels (`true` = high), pin output modes, the effects so far, the status. -/
structure World where
  level : Nat → Bool
  isOutput : Nat → Bool
  trace : List Effect
  status : Status

/-- Pointwise update of a pin table. -/
def setPin (f : Nat → Bool) (pin : Nat) (v : Bool) : Nat → Bool :=
  fun q => if q = pin then v else f q

/-- Records an effect that changes no pin. -/
def World.emit (w : World) (e : Effect) : World :=
  { w with trace := w.trace ++ [e] }

/-- The call `pin.Output()`. -/
def World.output (w : World) (pin : Nat) : World :=
  { w with isOutput := setPin w.isOutput pin true, trace := w.trace ++ [Effect.output pin] }

/-- The call `pin.High()`. -/
def World.high (w : World) (pin : Nat) : World :=
  { w with level := setPin w.level pin true, trace := w.trace ++ [Effect.high pin] }

/-- The call `pin.Low()`. -/
def World.low (w : World) (pin : Nat) : World :=
  { w with level := setPin w.level pin false, trace := w.trace ++ [Effect.low pin] }

/-- The call `time.Sleep(time.Millisecond * time.Duration(ms))`. -/
def World.sleep (w : World) (ms : Nat) : World :=
  w.emit (Effect.sleep ms)

/-- The call `os.Exit(code)`. -/
def World.exit (w : World) (code : Nat) : World :=
  { w with trace := w.trace ++ [Effect.exit code], status := Status.exited code }

/-- A run-time panic. -/
def World.panic (w : World) : World :=
  { w with trace := w.trace ++ [Effect.panic], status := Status.panicked }

/-! ## The functions of `main.go` -/

/-- The function `flashPin`. -/
def flashPin (pin : Nat) (interval : Nat) (w : World) : World :=
  let w := w.high pin
  if interval > 0 then
    let w := w.sleep interval
    let w := w.low pin
    w.sleep interval
  else
    w

/-- A Go `int` of `bits` bits: the two's-complement value of `x`. -/
def wrapInt (bits : Nat) (x : Int) : Int :=
  (x + 2 ^ (bits - 1)) % 2 ^ bits - 2 ^ (bits - 1)

/-- The call `rand.Intn(n)`: a panic (`none`) for `n ≤ 0`, else a value of
`[0, n)`, here the raw output `draw` of the generator reduced into that range,
so that every value of the range is the result for some `draw`. -/
def randIntn (draw : Nat) (n : Int) : Option Int :=
  if n ≤ 0 then none else some ((draw : Int) % n)

/-- The function `getBoundedRandNum` on `int`s of `bits` bits, `draw` being what
the generator gives at this call (the re-seeding only chooses it). A panic of
`rand.Intn` is `none`. -/
def getBoundedRandNum (bits : Nat) (draw : Nat) (min max : Int) : Option Int :=
  match randIntn draw (wrapInt bits (wrapInt bits (max - min) + 1)) with
  | none => none
  | some r => some (wrapInt bits (r + min))

/-- The function `exitGracefully`. -/
def exitGracefully (err : String) (w : World) : World :=
  (w.emit (Effect.stderr ("error: " ++ err ++ "\n"))).exit 1

/-- The function `check`. -/
def check (e : Option String) (w : World) : World :=
  match e with
  | some err => exitGracefully err w
  | none => w

/-- Pin of the red light. -/
def redPin : Nat := 9
/-- Pin of the yellow light. -/
def yellowPin : Nat := 10
/-- Pin of the green light. -/
def greenPin : Nat := 11

/-- Body of the goroutine of `main` once a signal is received. -/
def signalHandler (w : World) : World :=
  let w := w.low redPin
  let w := w.low yellowPin
  let w := w.low greenPin
  let w := w.emit (Effect.stdout "\nShutting down...\n")
  w.exit 0

/-- The part of `main` from `redPin.Output()` to the `switch`: pins to output
mode, the handler installed, the lights turned off. -/
def startup (w : World) : World :=
  let w := w.output redPin
  let w := w.output yellowPin
  let w := w.output greenPin
  let w := w.emit Effect.notify
  let w := w.low redPin
  let w := w.low yellowPin
  w.low greenPin

/-- The first `iters` iterations of `for { flashPin(pin, interval) }`. -/
def fixedLoop (pin : Nat) (interval : Nat) : Nat → World → World
  | 0, w => w
  | k + 1, w => fixedLoop pin interval k (flashPin pin interval w)

/-- One iteration of the loop of the `random` case: the index is drawn, the
slice is indexed (a panic when out of range), the pin is flashed. -/
def randomStep (bits : Nat) (pins : List Nat) (interval : Nat) (draw : Nat) (w : World) :
    World :=
  match getBoundedRandNum bits draw 0 ((pins.length : Int) - 1) with
  | none => w.panic
  | some i =>
    if i < 0 then w.panic
    else
      match pins.get? i.toNat with
      | none => w.panic
      | some pin => flashPin pin interval w

/-- The first `iters` iterations of the loop of the `random` case, the call of
iteration `j` drawing `draws j`; a panic ends the loop. -/
def randomLoop (bits : Nat) (pins : List Nat) (interval : Nat) (draws : Nat → Nat) :
    Nat → World → World
  | 0, w => w
  | k + 1, w =>
    let w := randomStep bits pins interval (draws 0) w
    match w.status with
    | Status.running => randomLoop bits pins interval (fun j => draws (j + 1)) k w
    | _ => w

/-- The `switch options.mode` of `main`, its loops run for `iters` iterations.
When no case applies the `switch` is left, `main` returns and the deferred
`rpio.Close()` runs. -/
def runSwitch (bits : Nat) (opts : options) (draws : Nat → Nat) (iters : Nat) (w : World) :
    World :=
  if opts.mode = "red" then fixedLoop redPin opts.interval iters w
  else if opts.mode = "yellow" then fixedLoop yellowPin opts.interval iters w
  else if opts.mode = "green" then fixedLoop greenPin opts.interval iters w
  else if opts.mode = "random" then
    randomLoop bits [redPin, yellowPin, greenPin] opts.interval draws iters w
  else
    { w.emit Effect.rpioClose with status := Status.returned }

/-- The world at process start: the pins as they were left, nothing done yet. -/
def World.boot (level isOutput : Nat → Bool) : World :=
  { level := level, isOutput := isOutput, trace := [], status := Status.running }

/-- The function `main`: `mode` and `interval` are the flag values, `openErr` the
result of `rpio.Open()`, `draws` the random source, `iters` the number of loop
iterations that are run, `bits` the width of `int`, `level` and `isOutput` the
state of the pins when the process starts. -/
def main (bits : Nat) (mode : String) (interval : Int) (openErr : Option String)
    (draws : Nat → Nat) (iters : Nat) (level isOutput : Nat → Bool) : World :=
  let w := World.boot level isOutput
  let r := getOptions mode interval
  let w := check r.2 w
  match w.status with
  | Status.running =>
    let w := check openErr (w.emit (Effect.rpioOpen openErr.isNone))
    match w.status with
    | Status.running =>
      let w := startup w
      runSwitch bits r.1 draws iters w
    | _ => w
  | _ => w

/-- The effects of one call `flashPin(pin, interval)`. -/
def flashEffects (pin : Nat) (interval : Nat) : List Effect :=
  if interval > 0 then
    [Effect.high pin, Effect.sleep interval, Effect.low pin, Effect.sleep interval]
  else
    [Effect.high pin]

/-- The effects of `startup`. -/
def startupEffects : List Effect :=
  [Effect.output 9, Effect.output 10, Effect.output 11, Effect.notify,
   Effect.low 9, Effect.low 10, Effect.low 11]

/-! ## Lemmas on the validator -/

theorem validModes_lookup (mode : String) :
    (validModes.lookup mode).isSome = true ↔ mode ∈ ["red", "yellow", "green", "random"] := by
  by_cases h1 : mode = "red"
  · subst h1; simp [validModes, List.lookup]
  by_cases h2 : mode = "yellow"
  · subst h2; simp [validModes, List.lookup]
  by_cases h3 : mode = "green"
  · subst h3; simp [validModes, List.lookup]
  by_cases h4 : mode = "random"
  · subst h4; simp [validModes, List.lookup]
  have e1 : (mode == "red") = false := by simpa using h1
  have e2 : (mode == "yellow") = false := by simpa using h2
  have e3 : (mode == "green") = false := by simpa using h3
  have e4 : (mode == "random") = false := by simpa using h4
  simp [validModes, List.lookup, e1, e2, e3, e4, h1, h2, h3, h4]

/-- An accepted call: the mode is a key of `validModes` and the interval is in range. -/
theorem getOptions_ok_iff (mode : String) (interval : Int) :
    (getOptions mode interval).2 = none ↔
      (mode ∈ ["red", "yellow", "green", "random"] ∧
        (if mode = "random" then 1 else 0) ≤ interval ∧ interval ≤ 100) := by
  have hl := validModes_lookup mode
  unfold getOptions
  by_cases hv : (validModes.lookup mode).isSome = true
  · have hm := hl.mp hv
    by_cases hr : interval < (if mode = "random" then 1 else 0) ∨ interval > 100
    · simp only [hv, Bool.not_true, Bool.false_eq_true, if_false, hr, if_true]
      constructor
      · intro h; cases h
      · rintro ⟨-, h1, h2⟩
        rcases hr with hr | hr <;> omega
    · simp only [hv, Bool.not_true, Bool.false_eq_true, if_false, hr]
      simp only [true_iff]
      push_neg at hr
      exact ⟨hm, hr.1, hr.2⟩
  · have hm : ¬ mode ∈ ["red", "yellow", "green", "random"] := fun h => hv (hl.mpr h)
    simp [hv, hm]

/-- What an accepted call returns. -/
theorem getOptions_of_ok (mode : String) (interval : Int)
    (h : (getOptions mode interval).2 = none) :
    getOptions mode interval = ({ mode := mode, interval := uint8 (interval * 100) }, none) := by
  unfold getOptions at h ⊢
  by_cases hv : (validModes.lookup mode).isSome = true
  · by_cases hr : interval < (if mode = "random" then 1 else 0) ∨ interval > 100
    · simp [hv, hr] at h
    · simp [hv, hr]
  · simp [hv] at h

/-- What a call with an unknown mode returns. -/
theorem getOptions_of_mode_err (mode : String) (interval : Int)
    (hv : ¬ (validModes.lookup mode).isSome = true) :
    getOptions mode interval = (options.zero, some errInvalidMode) := by
  simp [getOptions, hv]

/-- What a call with a known mode and an interval out of range returns. -/
theorem getOptions_of_range_err (mode : String) (interval : Int)
    (hv : (validModes.lookup mode).isSome = true)
    (hr : interval < (if mode = "random" then 1 else 0) ∨ interval > 100) :
    getOptions mode interval = (options.zero, some errInvalidInterval) := by
  simp [getOptions, hv, hr]

/-- The conversion `uint8(interval * 100)` keeps the value only up to `interval = 2`. -/
theorem uint8_hundredfold_eq_iff (interval : Int) (h0 : 0 ≤ interval) (h1 : interval ≤ 100) :
    ((uint8 (interval * 100) : Nat) : Int) = interval * 100 ↔ interval ≤ 2 := by
  unfold uint8
  have hnn : 0 ≤ interval * 100 % 256 := Int.emod_nonneg _ (by norm_num)
  rw [Int.toNat_of_nonneg hnn]
  omega

/-! ## Lemmas on `flashPin` and the loops -/

theorem setPin_same (f : Nat → Bool) (pin : Nat) (v : Bool) : setPin f pin v pin = v := by
  simp [setPin]

theorem setPin_other (f : Nat → Bool) (pin q : Nat) (v : Bool) (h : q ≠ pin) :
    setPin f pin v q = f q := by
  simp [setPin, h]

theorem flashPin_trace (pin interval : Nat) (w : World) :
    (flashPin pin interval w).trace = w.trace ++ flashEffects pin interval := by
  unfold flashPin flashEffects
  by_cases h : interval > 0
  · simp [h, World.high, World.low, World.sleep, World.emit]
  · simp [h, World.high]

theorem flashPin_level (pin interval : Nat) (w : World) :
    (flashPin pin interval w).level = setPin w.level pin (decide (interval = 0)) := by
  unfold flashPin
  by_cases h : interval > 0
  · have h0 : ¬ interval = 0 := by omega
    funext q
    by_cases hq : q = pin <;>
      simp [h, h0, hq, World.high, World.low, World.sleep, World.emit, setPin]
  · have h0 : interval = 0 := by omega
    simp [h0, World.high]

theorem flashPin_isOutput (pin interval : Nat) (w : World) :
    (flashPin pin interval w).isOutput = w.isOutput := by
  unfold flashPin
  by_cases h : interval > 0
  · simp [h, World.high, World.low, World.sleep, World.emit]
  · simp [h, World.high]

theorem flashPin_status (pin interval : Nat) (w : World) :
    (flashPin pin interval w).status = w.status := by
  unfold flashPin
  by_cases h : interval > 0
  · simp [h, World.high, World.low, World.sleep, World.emit]
  · simp [h, World.high]

theorem fixedLoop_trace (pin interval : Nat) (k : Nat) (w : World) :
    (fixedLoop pin interval k w).trace =
      w.trace ++ (List.replicate k (flashEffects pin interval)).flatten := by
  induction k generalizing w with
  | zero => simp [fixedLoop]
  | succ k ih =>
    rw [fixedLoop, ih, flashPin_trace, List.replicate_succ, List.flatten_cons,
      List.append_assoc]

theorem fixedLoop_status (pin interval : Nat) (k : Nat) (w : World) :
    (fixedLoop pin interval k w).status = w.status := by
  induction k generalizing w with
  | zero => simp [fixedLoop]
  | succ k ih => rw [fixedLoop, ih, flashPin_status]

theorem fixedLoop_isOutput (pin interval : Nat) (k : Nat) (w : World) :
    (fixedLoop pin interval k w).isOutput = w.isOutput := by
  induction k generalizing w with
  | zero => simp [fixedLoop]
  | succ k ih => rw [fixedLoop, ih, flashPin_isOutput]

theorem fixedLoop_level_other (pin interval : Nat) (k : Nat) (w : World) (q : Nat)
    (h : q ≠ pin) : (fixedLoop pin interval k w).level q = w.level q := by
  induction k generalizing w with
  | zero => simp [fixedLoop]
  | succ k ih => rw [fixedLoop, ih, flashPin_level, setPin_other _ _ _ _ h]

theorem fixedLoop_level_same (pin interval : Nat) (k : Nat) (w : World) :
    (fixedLoop pin interval (k + 1) w).level pin = decide (interval = 0) := by
  induction k generalizing w with
  | zero => simp [fixedLoop, flashPin_level, setPin_same]
  | succ k ih => rw [fixedLoop, ih]

/-! ## The validator -/

/-- C1 (the code departs from the claim). For a mode of red, yellow, green,
random and an interval of `[minInterval, 100]`, `getOptions` succeeds, and the
interval field it returns is the low eight bits of `interval * 100`: it is
`interval * 100` exactly when `interval ≤ 2`. -/
theorem getOptions_interval_field (mode : String) (interval : Int)
    (hmode : mode ∈ ["red", "yellow", "green", "random"])
    (hmin : (if mode = "random" then 1 else 0) ≤ interval) (hmax : interval ≤ 100) :
    getOptions mode interval =
        ({ mode := mode, interval := ((interval * 100) % 256).toNat }, none) ∧
      (((getOptions mode interval).1.interval : Int) = interval * 100 ↔ interval ≤ 2) := by
  have hacc := (getOptions_ok_iff mode interval).mpr ⟨hmode, hmin, hmax⟩
  have h0 : 0 ≤ interval := by
    by_cases hr : mode = "random"
    · rw [if_pos hr] at hmin; omega
    · rw [if_neg hr] at hmin; exact hmin
  rw [getOptions_of_ok mode interval hacc]
  exact ⟨rfl, uint8_hundredfold_eq_iff interval h0 hmax⟩

/-- C1 at the default flags `--mode random --interval 5`: the field is 244, not 500. -/
theorem getOptions_interval_field_default :
    getOptions "random" 5 = ({ mode := "random", interval := 244 }, none) ∧
      (((getOptions "random" 5).1.interval : Int) = 5 * 100 ↔ (5 : Int) ≤ 2) :=
  getOptions_interval_field "random" 5 (by decide) (by decide) (by decide)

/-- C2. `getOptions` returns no error exactly when the mode is one of red,
yellow, green, random and `minInterval ≤ interval ≤ 100`, with `minInterval` 1
for random and 0 otherwise; `(random, 0)` is rejected, `(red, 0)` is accepted,
and 101 is rejected for every mode. -/
theorem getOptions_no_error_iff (mode : String) (interval : Int) :
    ((getOptions mode interval).2 = none ↔
        (mode ∈ ["red", "yellow", "green", "random"] ∧
          (if mode = "random" then 1 else 0) ≤ interval ∧ interval ≤ 100)) ∧
      (getOptions "random" 0).2 ≠ none ∧
      (getOptions "red" 0).2 = none ∧
      (getOptions mode 101).2 ≠ none := by
  refine ⟨getOptions_ok_iff mode interval, by decide, by decide, ?_⟩
  intro h
  have := ((getOptions_ok_iff mode 101).mp h).2.2
  omega

/-- C3. For a mode that is not red, yellow, green or random, `getOptions`
returns the zero options and the invalid-mode error whatever the interval; and
the invalid-interval error is returned exactly when the mode is valid and the
interval is out of range. -/
theorem getOptions_invalid_mode (mode : String) (interval : Int)
    (hmode : mode ∉ ["red", "yellow", "green", "random"]) :
    getOptions mode interval =
        ({ mode := "", interval := 0 },
          some "mode can only be one of the following: red,yellow,green,random") ∧
      ∀ (m : String) (i : Int),
        (getOptions m i).2 =
            some ("interval can only be between 0 to 100, " ++
              "for random mode interval must be at least 1.") ↔
          (m ∈ ["red", "yellow", "green", "random"] ∧
            (i < (if m = "random" then 1 else 0) ∨ 100 < i)) := by
  constructor
  · have hv : ¬ (validModes.lookup mode).isSome = true :=
      fun h => hmode ((validModes_lookup mode).mp h)
    simp [getOptions, hv, options.zero, errInvalidMode]
  · intro m i
    have hl := validModes_lookup m
    have hne : errInvalidMode ≠ errInvalidInterval := by decide
    have hlit : ("interval can only be between 0 to 100, " ++
        "for random mode interval must be at least 1.") = errInvalidInterval := by decide
    rw [hlit]
    by_cases hv : (validModes.lookup m).isSome = true
    · have hm := hl.mp hv
      by_cases hr : i < (if m = "random" then 1 else 0) ∨ i > 100
      · rw [getOptions_of_range_err m i hv hr]
        exact ⟨fun _ => ⟨hm, hr⟩, fun _ => rfl⟩
      · have hacc : (getOptions m i).2 = none := by
          push_neg at hr
          exact (getOptions_ok_iff m i).mpr ⟨hm, hr.1, hr.2⟩
        rw [hacc]
        constructor
        · intro h; cases h
        · rintro ⟨-, h⟩; exact absurd h hr
    · have hm : ¬ m ∈ ["red", "yellow", "green", "random"] := fun h => hv (hl.mpr h)
      rw [getOptions_of_mode_err m i hv]
      constructor
      · intro h
        exact absurd (Option.some.inj h) hne
      · rintro ⟨h, -⟩; exact absurd h hm

/-- C3 at `--mode bogus --interval 5`. -/
theorem getOptions_invalid_mode_bogus :
    getOptions "bogus" 5 =
        ({ mode := "", interval := 0 },
          some "mode can only be one of the following: red,yellow,green,random") ∧
      ∀ (m : String) (i : Int),
        (getOptions m i).2 =
            some ("interval can only be between 0 to 100, " ++
              "for random mode interval must be at least 1.") ↔
          (m ∈ ["red", "yellow", "green", "random"] ∧
            (i < (if m = "random" then 1 else 0) ∨ 100 < i)) :=
  getOptions_invalid_mode "bogus" 5 (by decide)

/-! ## One flash cycle -/

/-- C4. One call `flashPin(p, i)` performs exactly: for `i > 0`, set `p` high,
sleep `i` ms, set `p` low, sleep `i` ms (the two sleeps are equal, `p` ends
low); for `i = 0`, only set `p` high (no sleep, no low, `p` ends high). No
other pin changes, and any number of repeated calls with `i = 0` leave `p` high
and the pin levels as one call leaves them. -/
theorem flashPin_effects (p i : Nat) (w : World) :
    (flashPin p i w).trace =
        w.trace ++ (if i > 0 then [Effect.high p, Effect.sleep i, Effect.low p, Effect.sleep i]
          else [Effect.high p]) ∧
      (flashPin p i w).level p = decide (i = 0) ∧
      (∀ q, q ≠ p → (flashPin p i w).level q = w.level q) ∧
      (flashPin p i w).isOutput = w.isOutput ∧
      (flashPin p i w).status = w.status ∧
      (flashPin p 0 (flashPin p 0 w)).level = (flashPin p 0 w).level ∧
      ∀ k, (fixedLoop p 0 (k + 1) w).level p = true ∧
        (fixedLoop p 0 (k + 1) w).level = (flashPin p 0 w).level ∧
        (fixedLoop p 0 (k + 1) w).trace = w.trace ++ List.replicate (k + 1) (Effect.high p) := by
  have hidem : ∀ v : World, (flashPin p 0 (flashPin p 0 v)).level = (flashPin p 0 v).level := by
    intro v
    funext q
    by_cases hq : q = p <;> simp [flashPin_level, setPin, hq]
  refine ⟨flashPin_trace p i w, ?_, ?_, flashPin_isOutput p i w, flashPin_status p i w,
    hidem w, ?_⟩
  · rw [flashPin_level, setPin_same]
  · intro q hq
    rw [flashPin_level, setPin_other _ _ _ _ hq]
  · intro k
    refine ⟨by simpa using fixedLoop_level_same p 0 k w, ?_, ?_⟩
    · induction k generalizing w with
      | zero => simp [fixedLoop]
      | succ k ih => rw [fixedLoop, ih, hidem]
    · rw [fixedLoop_trace]
      congr 1
      generalize k + 1 = n
      induction n with
      | zero => simp
      | succ n ih => simp [List.replicate_succ, flashEffects, ih]

/-- C5 (the code departs from the claim). For an accepted configuration of
`n ≥ 1` interval units, the flash cycle driven by the returned options sleeps
the low eight bits of `n * 100` milliseconds, twice, or not at all when these
are zero; it is the cycle of `n * 100` ms high and `n * 100` ms low exactly when
`n ≤ 2`. -/
theorem flash_cycle_of_accepted (mode : String) (n : Int) (p : Nat) (w : World)
    (hacc : (getOptions mode n).2 = none) (hn : 1 ≤ n) :
    (flashPin p (getOptions mode n).1.interval w).trace =
        w.trace ++ flashEffects p ((n * 100) % 256).toNat ∧
      ((flashPin p (getOptions mode n).1.interval w).trace =
          w.trace ++ [Effect.high p, Effect.sleep (n * 100).toNat,
            Effect.low p, Effect.sleep (n * 100).toNat] ↔ n ≤ 2) := by
  have hmax := ((getOptions_ok_iff mode n).mp hacc).2.2
  have hnn : 0 ≤ n * 100 % 256 := Int.emod_nonneg _ (by norm_num)
  have hconv := uint8_hundredfold_eq_iff n (by omega) hmax
  rw [getOptions_of_ok mode n hacc, flashPin_trace]
  refine ⟨rfl, ?_⟩
  simp only [List.append_cancel_left_eq]
  show flashEffects p (uint8 (n * 100)) = _ ↔ _
  constructor
  · intro h
    unfold flashEffects at h
    by_cases hz : uint8 (n * 100) > 0
    · rw [if_pos hz] at h
      simp only [List.cons.injEq, Effect.sleep.injEq, Effect.high.injEq, Effect.low.injEq] at h
      apply hconv.mp
      rw [h.2.1, Int.toNat_of_nonneg (by omega)]
    · rw [if_neg hz] at h
      simp at h
  · intro h2
    have hval : uint8 (n * 100) = (n * 100).toNat := by
      have := hconv.mpr h2
      omega
    have hpos : (n * 100).toNat > 0 := by omega
    rw [hval]
    simp [flashEffects, hpos]

/-- C5 at the default `n = 5`: the pin is high 244 ms and low 244 ms, not 500 ms
each, also when the cycle is run by `main`. -/
theorem flash_cycle_default :
    ((flashPin 9 (getOptions "red" 5).1.interval (World.boot (fun _ => false) (fun _ => true))).trace =
        [] ++ flashEffects 9 244 ∧
      ((flashPin 9 (getOptions "red" 5).1.interval
            (World.boot (fun _ => false) (fun _ => true))).trace =
          [] ++ [Effect.high 9, Effect.sleep 500, Effect.low 9, Effect.sleep 500] ↔
        (5 : Int) ≤ 2)) ∧
      (main 64 "red" 5 none (fun _ => 0) 1 (fun _ => false) (fun _ => false)).trace =
        [Effect.rpioOpen true, Effect.output 9, Effect.output 10, Effect.output 11,
          Effect.notify, Effect.low 9, Effect.low 10, Effect.low 11,
          Effect.high 9, Effect.sleep 244, Effect.low 9, Effect.sleep 244] :=
  ⟨flash_cycle_of_accepted "red" 5 9 (World.boot (fun _ => false) (fun _ => true))
    (by decide) (by decide), by decide⟩

/-! ## The random selector -/

theorem two_pow_split (bits : Nat) (hb : 1 ≤ bits) :
    (2 : Int) ^ bits = 2 * 2 ^ (bits - 1) := by
  obtain ⟨k, rfl⟩ : ∃ k, bits = k + 1 := ⟨bits - 1, by omega⟩
  rw [Nat.add_sub_cancel, pow_succ]
  ring

theorem four_le_two_pow (bits : Nat) (hb : 3 ≤ bits) : (4 : Int) ≤ 2 ^ (bits - 1) := by
  obtain ⟨k, rfl⟩ : ∃ k, bits = k + 3 := ⟨bits - 3, by omega⟩
  have h1 : (1 : Int) ≤ 2 ^ k := one_le_pow₀ (by norm_num)
  have h2 : k + 3 - 1 = k + 2 := by omega
  rw [h2, pow_add]
  norm_num
  linarith

/-- A value that fits an `int` is not changed by wrapping. -/
theorem wrapInt_of_inRange (bits : Nat) (x : Int) (hb : 1 ≤ bits)
    (h1 : -2 ^ (bits - 1) ≤ x) (h2 : x < 2 ^ (bits - 1)) : wrapInt bits x = x := by
  unfold wrapInt
  rw [two_pow_split bits hb]
  generalize (2 : Int) ^ (bits - 1) = H at h1 h2 ⊢
  rw [Int.emod_eq_of_lt (by omega) (by omega)]
  ring

/-- Without overflow `getBoundedRandNum` is `draw mod (max - min + 1) + min`. -/
theorem getBoundedRandNum_eq (bits : Nat) (min max : Int) (hbits : 1 ≤ bits)
    (hmin : -2 ^ (bits - 1) ≤ min) (hmax : max < 2 ^ (bits - 1)) (hle : min ≤ max)
    (hfit : max - min + 1 < 2 ^ (bits - 1)) (draw : Nat) :
    getBoundedRandNum bits draw min max = some ((draw : Int) % (max - min + 1) + min) := by
  have hpos : (0 : Int) < max - min + 1 := by omega
  have hr0 := Int.emod_nonneg (draw : Int) (ne_of_gt hpos)
  have hr1 := Int.emod_lt_of_pos (draw : Int) hpos
  unfold getBoundedRandNum randIntn
  rw [wrapInt_of_inRange bits (max - min) hbits (by omega) (by omega),
    wrapInt_of_inRange bits (max - min + 1) hbits (by omega) (by omega)]
  rw [if_neg (by omega)]
  simp only
  rw [wrapInt_of_inRange bits _ hbits (by omega) (by omega)]

/-- When `max - min + 1` overflows, `rand.Intn` is given a number that is not
positive and panics: the condition of `getBoundedRandNum_eq` cannot be dropped. -/
theorem getBoundedRandNum_none_of_overflow (bits : Nat) (min max : Int) (hbits : 1 ≤ bits)
    (hmin : -2 ^ (bits - 1) ≤ min) (hmax : max < 2 ^ (bits - 1))
    (hover : 2 ^ (bits - 1) ≤ max - min + 1) (draw : Nat) :
    getBoundedRandNum bits draw min max = none := by
  have hn : wrapInt bits (wrapInt bits (max - min) + 1) ≤ 0 := by
    unfold wrapInt
    rw [two_pow_split bits hbits]
    have hH : (0 : Int) < 2 ^ (bits - 1) := by positivity
    generalize (2 : Int) ^ (bits - 1) = H at hmin hmax hover hH ⊢
    by_cases hd : max - min = H - 1
    · have e1 : (max - min + H) % (2 * H) = 2 * H - 1 := by
        have : max - min + H = 2 * H - 1 := by omega
        rw [this]
        exact Int.emod_eq_of_lt (by omega) (by omega)
      rw [e1]
      have e2 : (2 * H - 1 - H + 1 + H) % (2 * H) = 0 := by
        have : 2 * H - 1 - H + 1 + H = 2 * H := by ring
        rw [this]
        exact Int.emod_self
      rw [e2]
      omega
    · have e1 : (max - min + H) % (2 * H) = max - min - H := by
        have : max - min + H = (max - min - H) + 2 * H := by ring
        rw [this, Int.add_emod_self]
        exact Int.emod_eq_of_lt (by omega) (by omega)
      rw [e1]
      have e2 : (max - min - H - H + 1 + H) % (2 * H) = max - min - H + 1 := by
        have : max - min - H - H + 1 + H = max - min - H + 1 := by ring
        rw [this]
        exact Int.emod_eq_of_lt (by omega) (by omega)
      rw [e2]
      omega
  unfold getBoundedRandNum randIntn
  rw [if_pos hn]

/-- With three pins the drawn index is 0, 1 or 2. -/
theorem getBoundedRandNum_index (bits : Nat) (hbits : 3 ≤ bits) (draw : Nat) :
    ∃ i : Nat, i < 3 ∧ getBoundedRandNum bits draw 0 2 = some (i : Int) := by
  have h4 := four_le_two_pow bits hbits
  refine ⟨draw % 3, Nat.mod_lt _ (by norm_num), ?_⟩
  rw [getBoundedRandNum_eq bits 0 2 (by omega) (by omega) (by omega) (by norm_num)
    (by omega) draw]
  simp

/-- One iteration of the random loop flashes pin 9, 10 or 11. -/
theorem randomStep_flashes (bits : Nat) (hbits : 3 ≤ bits) (draw interval : Nat) (w : World) :
    ∃ p ∈ [9, 10, 11],
      randomStep bits [redPin, yellowPin, greenPin] interval draw w = flashPin p interval w := by
  obtain ⟨i, hi, hget⟩ := getBoundedRandNum_index bits hbits draw
  have hlen : (([redPin, yellowPin, greenPin] : List Nat).length : Int) - 1 = 2 := by
    simp
  unfold randomStep
  rw [hlen, hget]
  interval_cases i
  · exact ⟨9, by simp, by simp [redPin]⟩
  · exact ⟨10, by simp, by simp [yellowPin]⟩
  · exact ⟨11, by simp, by simp [greenPin]⟩

/-- C6 (amended). For `int`s `min ≤ max` whose distance `max - min + 1` does not
overflow, `getBoundedRandNum(min, max)` returns a value of `[min, max]`; a draw
`r` of `[0, max - min]` gives `r + min`, and every value of `[min, max]` is given
by exactly one such draw. With the three pins the index is always one of 0, 1,
2, each of them is reached, the slice access is in bounds, and an iteration of
the random loop flashes one of the pins 9, 10, 11. -/
theorem getBoundedRandNum_range (bits : Nat) (min max : Int) (hbits : 3 ≤ bits)
    (hmin : -2 ^ (bits - 1) ≤ min) (hmax : max < 2 ^ (bits - 1)) (hle : min ≤ max)
    (hfit : max - min + 1 < 2 ^ (bits - 1)) :
    (∀ draw, ∃ v, getBoundedRandNum bits draw min max = some v ∧ min ≤ v ∧ v ≤ max) ∧
      (∀ r : Nat, (r : Int) ≤ max - min →
        getBoundedRandNum bits r min max = some ((r : Int) + min)) ∧
      (∀ v, min ≤ v → v ≤ max →
        ∃! r : Nat, (r : Int) ≤ max - min ∧ getBoundedRandNum bits r min max = some v) ∧
      (∀ (draw : Nat) (pins : List Nat), pins.length = 3 →
        ∃ i : Nat, getBoundedRandNum bits draw 0 ((pins.length : Int) - 1) = some (i : Int) ∧
          i < pins.length ∧ (pins.get? i).isSome = true) ∧
      (∀ i : Nat, i < 3 → getBoundedRandNum bits i 0 2 = some (i : Int)) ∧
      (∀ (draw interval : Nat) (w : World), ∃ p ∈ [9, 10, 11],
        randomStep bits [redPin, yellowPin, greenPin] interval draw w = flashPin p interval w) := by
  have hb1 : 1 ≤ bits := by omega
  have h4 := four_le_two_pow bits hbits
  have hpos : (0 : Int) < max - min + 1 := by omega
  have hsmall : ∀ r : Nat, (r : Int) ≤ max - min →
      getBoundedRandNum bits r min max = some ((r : Int) + min) := by
    intro r hr
    rw [getBoundedRandNum_eq bits min max hb1 hmin hmax hle hfit r,
      Int.emod_eq_of_lt (by omega) (by omega)]
  have hidx := getBoundedRandNum_index bits hbits
  refine ⟨?_, hsmall, ?_, ?_, ?_, ?_⟩
  · intro draw
    have hr0 := Int.emod_nonneg (draw : Int) (ne_of_gt hpos)
    have hr1 := Int.emod_lt_of_pos (draw : Int) hpos
    exact ⟨_, getBoundedRandNum_eq bits min max hb1 hmin hmax hle hfit draw,
      by omega, by omega⟩
  · intro v hv1 hv2
    refine ⟨(v - min).toNat, ⟨by omega, ?_⟩, ?_⟩
    · rw [hsmall _ (by omega)]
      congr 1
      omega
    · rintro r ⟨hr, hrv⟩
      rw [hsmall r hr] at hrv
      have := Option.some.inj hrv
      omega
  · intro draw pins hlen
    obtain ⟨i, hi, hget⟩ := hidx draw
    refine ⟨i, ?_, by omega, ?_⟩
    · rw [hlen]
      exact hget
    · rw [List.get?_eq_getElem?, Option.isSome_iff_exists]
      exact ⟨pins[i], List.getElem?_eq_getElem (by omega)⟩
  · intro i hi
    have := hsmall
    rw [getBoundedRandNum_eq bits 0 2 hb1 (by omega) (by omega) (by norm_num) (by omega) i,
      Int.emod_eq_of_lt (by omega) (by omega)]
    simp
  · exact randomStep_flashes bits hbits

/-- C6 with 64-bit `int`s, `min = 10` and `max = 20`. -/
theorem getBoundedRandNum_range_ten_twenty :
    (∀ draw, ∃ v, getBoundedRandNum 64 draw 10 20 = some v ∧ 10 ≤ v ∧ v ≤ 20) ∧
      (∀ r : Nat, (r : Int) ≤ 20 - 10 →
        getBoundedRandNum 64 r 10 20 = some ((r : Int) + 10)) ∧
      (∀ v, 10 ≤ v → v ≤ 20 →
        ∃! r : Nat, (r : Int) ≤ 20 - 10 ∧ getBoundedRandNum 64 r 10 20 = some v) ∧
      (∀ (draw : Nat) (pins : List Nat), pins.length = 3 →
        ∃ i : Nat, getBoundedRandNum 64 draw 0 ((pins.length : Int) - 1) = some (i : Int) ∧
          i < pins.length ∧ (pins.get? i).isSome = true) ∧
      (∀ i : Nat, i < 3 → getBoundedRandNum 64 i 0 2 = some (i : Int)) ∧
      (∀ (draw interval : Nat) (w : World), ∃ p ∈ [9, 10, 11],
        randomStep 64 [redPin, yellowPin, greenPin] interval draw w = flashPin p interval w) :=
  getBoundedRandNum_range 64 10 20 (by decide) (by decide) (by decide) (by decide) (by decide)

/-- C6 as stated fails: with 64-bit `int`s, `min = -1 ≤ max = 2^63 - 1`, the
difference `max - min + 1` wraps to a negative number and `rand.Intn` panics,
whatever the generator draws; likewise on 32-bit `int`s. -/
theorem getBoundedRandNum_overflow :
    (-1 : Int) ≤ 2 ^ 63 - 1 ∧
      (∀ draw, getBoundedRandNum 64 draw (-1) (2 ^ 63 - 1) = none) ∧
      (∀ draw, getBoundedRandNum 32 draw (-1) (2 ^ 31 - 1) = none) := by
  refine ⟨by decide, ?_, ?_⟩
  · intro draw
    have h : wrapInt 64 (wrapInt 64 (2 ^ 63 - 1 - -1) + 1) ≤ 0 := by decide
    unfold getBoundedRandNum randIntn
    rw [if_pos h]
  · intro draw
    have h : wrapInt 32 (wrapInt 32 (2 ^ 31 - 1 - -1) + 1) ≤ 0 := by decide
    unfold getBoundedRandNum randIntn
    rw [if_pos h]

/-! ## Lemmas on `main` -/

theorem startup_trace (w : World) : (startup w).trace = w.trace ++ startupEffects := by
  simp [startup, startupEffects, World.output, World.low, World.emit, redPin, yellowPin,
    greenPin]

theorem startup_status (w : World) : (startup w).status = w.status := by
  simp [startup, World.output, World.low, World.emit]

theorem startup_level (w : World) :
    (startup w).level = setPin (setPin (setPin w.level 9 false) 10 false) 11 false := by
  simp [startup, World.output, World.low, World.emit, redPin, yellowPin, greenPin]

theorem startup_level_low (w : World) (q : Nat) (hq : q ∈ [9, 10, 11]) :
    (startup w).level q = false := by
  rw [startup_level]
  simp only [List.mem_cons, List.mem_singleton, List.not_mem_nil, or_false] at hq
  rcases hq with rfl | rfl | rfl <;> simp [setPin]

/-- With accepted flags and the GPIO opened, `main` reaches the `switch`. -/
theorem main_of_ok (bits : Nat) (mode : String) (interval : Int) (draws : Nat → Nat)
    (iters : Nat) (level isOutput : Nat → Bool) (hacc : (getOptions mode interval).2 = none) :
    main bits mode interval none draws iters level isOutput =
      runSwitch bits { mode := mode, interval := uint8 (interval * 100) } draws iters
        (startup ((World.boot level isOutput).emit (Effect.rpioOpen true))) := by
  unfold main
  rw [getOptions_of_ok mode interval hacc]
  simp [check, World.boot, World.emit]

theorem runSwitch_red (bits i : Nat) (draws : Nat → Nat) (iters : Nat) (w : World) :
    runSwitch bits { mode := "red", interval := i } draws iters w = fixedLoop 9 i iters w := by
  rfl

theorem runSwitch_yellow (bits i : Nat) (draws : Nat → Nat) (iters : Nat) (w : World) :
    runSwitch bits { mode := "yellow", interval := i } draws iters w =
      fixedLoop 10 i iters w := by
  have h1 : ¬ ("yellow" : String) = "red" := by decide
  simp only [runSwitch, h1, if_false, if_true]
  rfl

theorem runSwitch_green (bits i : Nat) (draws : Nat → Nat) (iters : Nat) (w : World) :
    runSwitch bits { mode := "green", interval := i } draws iters w =
      fixedLoop 11 i iters w := by
  have h1 : ¬ ("green" : String) = "red" := by decide
  have h2 : ¬ ("green" : String) = "yellow" := by decide
  simp only [runSwitch, h1, h2, if_false, if_true]
  rfl

theorem runSwitch_random (bits i : Nat) (draws : Nat → Nat) (iters : Nat) (w : World) :
    runSwitch bits { mode := "random", interval := i } draws iters w =
      randomLoop bits [redPin, yellowPin, greenPin] i draws iters w := by
  have h1 : ¬ ("random" : String) = "red" := by decide
  have h2 : ¬ ("random" : String) = "yellow" := by decide
  have h3 : ¬ ("random" : String) = "green" := by decide
  simp only [runSwitch, h1, h2, h3, if_false, if_true]

theorem runSwitch_zero (bits : Nat) (opts : options) (draws : Nat → Nat) (w : World)
    (hmode : opts.mode ∈ ["red", "yellow", "green", "random"]) :
    runSwitch bits opts draws 0 w = w := by
  obtain ⟨m, i⟩ := opts
  simp only [List.mem_cons, List.mem_singleton, List.not_mem_nil, or_false] at hmode
  rcases hmode with rfl | rfl | rfl | rfl
  · rw [runSwitch_red]; rfl
  · rw [runSwitch_yellow]; rfl
  · rw [runSwitch_green]; rfl
  · rw [runSwitch_random]; rfl

theorem randomLoop_zero (bits : Nat) (pins : List Nat) (interval : Nat) (draws : Nat → Nat)
    (w : World) : randomLoop bits pins interval draws 0 w = w := rfl

theorem randomLoop_succ (bits : Nat) (pins : List Nat) (interval : Nat) (draws : Nat → Nat)
    (k : Nat) (w : World)
    (h : (randomStep bits pins interval (draws 0) w).status = Status.running) :
    randomLoop bits pins interval draws (k + 1) w =
      randomLoop bits pins interval (fun j => draws (j + 1)) k
        (randomStep bits pins interval (draws 0) w) := by
  show (match (randomStep bits pins interval (draws 0) w).status with
    | Status.running => randomLoop bits pins interval (fun j => draws (j + 1)) k
        (randomStep bits pins interval (draws 0) w)
    | _ => randomStep bits pins interval (draws 0) w) = _
  rw [h]

/-- The random loop never panics and keeps flashing one of the three pins. -/
theorem randomLoop_running (bits : Nat) (hbits : 3 ≤ bits) (interval : Nat) (k : Nat) :
    ∀ (draws : Nat → Nat) (w : World), w.status = Status.running →
      (randomLoop bits [redPin, yellowPin, greenPin] interval draws k w).status =
          Status.running ∧
        ∃ rest, (randomLoop bits [redPin, yellowPin, greenPin] interval draws k w).trace =
          w.trace ++ rest := by
  induction k with
  | zero =>
    intro draws w hw
    rw [randomLoop_zero]
    exact ⟨hw, [], by simp⟩
  | succ k ih =>
    intro draws w hw
    obtain ⟨p, -, hp⟩ := randomStep_flashes bits hbits (draws 0) interval w
    have hst : (flashPin p interval w).status = Status.running := by
      rw [flashPin_status, hw]
    obtain ⟨h1, rest, h2⟩ := ih (fun j => draws (j + 1)) (flashPin p interval w) hst
    rw [randomLoop_succ _ _ _ _ _ _ (by rw [hp]; exact hst), hp]
    refine ⟨h1, flashEffects p interval ++ rest, ?_⟩
    rw [h2, flashPin_trace, List.append_assoc]

theorem flashEffects_head (p i : Nat) : ∃ tl, flashEffects p i = Effect.high p :: tl := by
  unfold flashEffects
  by_cases h : i > 0
  · rw [if_pos h]; exact ⟨_, rfl⟩
  · rw [if_neg h]; exact ⟨_, rfl⟩

theorem fixedLoop_first_flash (p i k : Nat) (w : World) :
    ∃ rest, (fixedLoop p i (k + 1) w).trace = w.trace ++ Effect.high p :: rest := by
  obtain ⟨tl, htl⟩ := flashEffects_head p i
  refine ⟨tl ++ (List.replicate k (flashEffects p i)).flatten, ?_⟩
  rw [fixedLoop_trace, List.replicate_succ, List.flatten_cons, htl]
  simp

/-- For a known mode the `switch` enters a loop, which keeps running and whose
first effect is to set one of the three pins high. -/
theorem runSwitch_flashes (bits : Nat) (hbits : 3 ≤ bits) (opts : options)
    (draws : Nat → Nat) (iters : Nat) (w : World)
    (hmode : opts.mode ∈ ["red", "yellow", "green", "random"])
    (hw : w.status = Status.running) :
    (runSwitch bits opts draws iters w).status = Status.running ∧
      ∃ p ∈ [9, 10, 11], ∃ rest,
        (runSwitch bits opts draws (iters + 1) w).trace = w.trace ++ Effect.high p :: rest := by
  obtain ⟨m, i⟩ := opts
  simp only [List.mem_cons, List.mem_singleton, List.not_mem_nil, or_false] at hmode
  rcases hmode with rfl | rfl | rfl | rfl
  · rw [runSwitch_red, runSwitch_red, fixedLoop_status]
    exact ⟨hw, 9, by simp, fixedLoop_first_flash 9 i iters w⟩
  · rw [runSwitch_yellow, runSwitch_yellow, fixedLoop_status]
    exact ⟨hw, 10, by simp, fixedLoop_first_flash 10 i iters w⟩
  · rw [runSwitch_green, runSwitch_green, fixedLoop_status]
    exact ⟨hw, 11, by simp, fixedLoop_first_flash 11 i iters w⟩
  · rw [runSwitch_random, runSwitch_random]
    refine ⟨(randomLoop_running bits hbits i iters draws w hw).1, ?_⟩
    obtain ⟨p, hp, hstep⟩ := randomStep_flashes bits hbits (draws 0) i w
    have hst : (flashPin p i w).status = Status.running := by
      rw [flashPin_status, hw]
    obtain ⟨-, rest, h2⟩ :=
      randomLoop_running bits hbits i iters (fun j => draws (j + 1)) (flashPin p i w) hst
    obtain ⟨tl, htl⟩ := flashEffects_head p i
    refine ⟨p, hp, tl ++ rest, ?_⟩
    rw [randomLoop_succ _ _ _ _ _ _ (by rw [hstep]; exact hst), hstep, h2, flashPin_trace, htl]
    simp

/-! ## Start-up, shutdown and errors -/

/-- C7. For every prior pin state: after the start-up sequence of `main` and
before the first `flashPin` call the pins 9, 10 and 11 are low; and the body of
the termination handler, run from any pin state, leaves the three pins low,
prints the shutdown message and exits with status 0. -/
theorem pins_low_at_startup_and_shutdown (bits : Nat) (mode : String) (interval : Int)
    (draws : Nat → Nat) (level isOutput : Nat → Bool) (w : World)
    (hacc : (getOptions mode interval).2 = none) :
    ((main bits mode interval none draws 0 level isOutput).level 9 = false ∧
        (main bits mode interval none draws 0 level isOutput).level 10 = false ∧
        (main bits mode interval none draws 0 level isOutput).level 11 = false ∧
        (main bits mode interval none draws 0 level isOutput).status = Status.running ∧
        (main bits mode interval none draws 0 level isOutput).trace =
          [Effect.rpioOpen true, Effect.output 9, Effect.output 10, Effect.output 11,
            Effect.notify, Effect.low 9, Effect.low 10, Effect.low 11]) ∧
      ((signalHandler w).level 9 = false ∧
        (signalHandler w).level 10 = false ∧
        (signalHandler w).level 11 = false ∧
        (signalHandler w).trace =
          w.trace ++ [Effect.low 9, Effect.low 10, Effect.low 11,
            Effect.stdout "\nShutting down...\n", Effect.exit 0] ∧
        (signalHandler w).status = Status.exited 0) := by
  have hmode := ((getOptions_ok_iff mode interval).mp hacc).1
  constructor
  · rw [main_of_ok bits mode interval draws 0 level isOutput hacc,
      runSwitch_zero _ _ _ _ hmode]
    refine ⟨startup_level_low _ 9 (by simp), startup_level_low _ 10 (by simp),
      startup_level_low _ 11 (by simp), ?_, ?_⟩
    · rw [startup_status]; rfl
    · rw [startup_trace]; rfl
  · simp [signalHandler, World.low, World.emit, World.exit, setPin, redPin, yellowPin,
      greenPin]

/-- C7 at `--mode green --interval 7`, every pin high before the start and when
the signal arrives. -/
theorem pins_low_green_seven :
    ((main 64 "green" 7 none (fun _ => 0) 0 (fun _ => true) (fun _ => false)).level 9 = false ∧
        (main 64 "green" 7 none (fun _ => 0) 0 (fun _ => true) (fun _ => false)).level 10 =
          false ∧
        (main 64 "green" 7 none (fun _ => 0) 0 (fun _ => true) (fun _ => false)).level 11 =
          false ∧
        (main 64 "green" 7 none (fun _ => 0) 0 (fun _ => true) (fun _ => false)).status =
          Status.running ∧
        (main 64 "green" 7 none (fun _ => 0) 0 (fun _ => true) (fun _ => false)).trace =
          [Effect.rpioOpen true, Effect.output 9, Effect.output 10, Effect.output 11,
            Effect.notify, Effect.low 9, Effect.low 10, Effect.low 11]) ∧
      ((signalHandler (World.boot (fun _ => true) (fun _ => true))).level 9 = false ∧
        (signalHandler (World.boot (fun _ => true) (fun _ => true))).level 10 = false ∧
        (signalHandler (World.boot (fun _ => true) (fun _ => true))).level 11 = false ∧
        (signalHandler (World.boot (fun _ => true) (fun _ => true))).trace =
          (World.boot (fun _ => true) (fun _ => true)).trace ++
            [Effect.low 9, Effect.low 10, Effect.low 11,
              Effect.stdout "\nShutting down...\n", Effect.exit 0] ∧
        (signalHandler (World.boot (fun _ => true) (fun _ => true))).status =
          Status.exited 0) :=
  pins_low_at_startup_and_shutdown 64 "green" 7 (fun _ => 0) (fun _ => true) (fun _ => false)
    (World.boot (fun _ => true) (fun _ => true)) (by decide)

/-- C8. When `getOptions` returns an error, `main` prints `error: <message>` to
standard error and exits with status 1, and that is all it does: no
`rpio.Open`, no pin mode or level is set. When `rpio.Open` returns an error,
`main` has only called `rpio.Open`, prints `error: <message>` and exits with
status 1, no pin mode or level being set. -/
theorem main_error_exits (bits : Nat) (mode : String) (interval : Int)
    (draws : Nat → Nat) (iters : Nat) (level isOutput : Nat → Bool) :
    (∀ (msg : String) (openErr : Option String), (getOptions mode interval).2 = some msg →
        (main bits mode interval openErr draws iters level isOutput).trace =
            [Effect.stderr ("error: " ++ msg ++ "\n"), Effect.exit 1] ∧
          (main bits mode interval openErr draws iters level isOutput).status =
            Status.exited 1 ∧
          (main bits mode interval openErr draws iters level isOutput).level = level ∧
          (main bits mode interval openErr draws iters level isOutput).isOutput = isOutput) ∧
      (∀ msg : String, (getOptions mode interval).2 = none →
        (main bits mode interval (some msg) draws iters level isOutput).trace =
            [Effect.rpioOpen false, Effect.stderr ("error: " ++ msg ++ "\n"), Effect.exit 1] ∧
          (main bits mode interval (some msg) draws iters level isOutput).status =
            Status.exited 1 ∧
          (main bits mode interval (some msg) draws iters level isOutput).level = level ∧
          (main bits mode interval (some msg) draws iters level isOutput).isOutput =
            isOutput) := by
  constructor
  · intro msg openErr h
    simp [main, h, check, exitGracefully, World.exit, World.emit, World.boot]
  · intro msg h
    simp [main, h, check, exitGracefully, World.exit, World.emit, World.boot]

/-- C8 at `--mode bogus`, and at accepted flags with a GPIO that cannot be opened. -/
theorem main_error_exits_bogus :
    (main 64 "bogus" 5 none (fun _ => 0) 3 (fun _ => true) (fun _ => false)).trace =
        [Effect.stderr
            "error: mode can only be one of the following: red,yellow,green,random\n",
          Effect.exit 1] ∧
      (main 64 "red" 5 (some "open /dev/gpiomem: permission denied") (fun _ => 0) 3
          (fun _ => true) (fun _ => false)).trace =
        [Effect.rpioOpen false, Effect.stderr "error: open /dev/gpiomem: permission denied\n",
          Effect.exit 1] :=
  ⟨((main_error_exits 64 "bogus" 5 (fun _ => 0) 3 (fun _ => true) (fun _ => false)).1
      errInvalidMode none (by decide)).1,
    ((main_error_exits 64 "red" 5 (fun _ => 0) 3 (fun _ => true) (fun _ => false)).2
      "open /dev/gpiomem: permission denied" (by decide)).1⟩

/-! ## Random mode and the interval -/

/-- C9 (the code departs from the claim). For an accepted configuration of mode
random the stored interval is greater than 0 exactly when the interval flag is
not 64: at 64 the low eight bits of 6400 are 0, and a flash cycle then leaves
the pin high. -/
theorem random_interval_positive_iff (interval : Int)
    (hacc : (getOptions "random" interval).2 = none) :
    (0 < (getOptions "random" interval).1.interval ↔ interval ≠ 64) ∧
      ∀ (p : Nat) (w : World),
        (flashPin p (getOptions "random" interval).1.interval w).level p =
          decide (interval = 64) := by
  have hr := (getOptions_ok_iff "random" interval).mp hacc
  have h1 : (1 : Int) ≤ interval := by simpa using hr.2.1
  have h2 := hr.2.2
  have hnn : 0 ≤ interval * 100 % 256 := Int.emod_nonneg _ (by norm_num)
  have hval : (uint8 (interval * 100) = 0) ↔ interval = 64 := by
    unfold uint8
    omega
  rw [getOptions_of_ok "random" interval hacc]
  constructor
  · show 0 < uint8 (interval * 100) ↔ _
    rw [Nat.pos_iff_ne_zero, Ne, hval]
  · intro p w
    show (flashPin p (uint8 (interval * 100)) w).level p = _
    rw [flashPin_level, setPin_same]
    exact decide_eq_decide.mpr hval

/-- C9 at `--mode random --interval 64`: the stored interval is 0, and `main`
sets pins high without ever setting one low again. -/
theorem random_interval_sixty_four :
    ((0 < (getOptions "random" 64).1.interval ↔ (64 : Int) ≠ 64) ∧
        ∀ (p : Nat) (w : World),
          (flashPin p (getOptions "random" 64).1.interval w).level p =
            decide ((64 : Int) = 64)) ∧
      getOptions "random" 64 = ({ mode := "random", interval := 0 }, none) ∧
      (main 64 "random" 64 none (fun j => j) 2 (fun _ => false) (fun _ => false)).trace =
        [Effect.rpioOpen true, Effect.output 9, Effect.output 10, Effect.output 11,
          Effect.notify, Effect.low 9, Effect.low 10, Effect.low 11,
          Effect.high 9, Effect.high 10] :=
  ⟨random_interval_positive_iff 64 (by decide), by decide, by decide⟩

/-! ## The fixed-colour modes -/

/-- C10. In mode red, yellow or green (pin 9, 10, 11), after start-up `main`
only performs the flash cycles of the selected pin: for every number of loop
iterations the trace is the start-up followed by these cycles, and every other
pin has the level it had after start-up, low for the two other lights. For every
accepted mode exactly one case of the `switch` applies; the loop is entered,
keeps running, and the first thing it does is to set one of the pins high. -/
theorem fixed_mode_writes_one_pin (bits : Nat) (mode : String) (interval : Int)
    (draws : Nat → Nat) (iters : Nat) (level isOutput : Nat → Bool) (hbits : 3 ≤ bits)
    (hacc : (getOptions mode interval).2 = none) :
    (∀ pin, (mode = "red" ∧ pin = 9 ∨ mode = "yellow" ∧ pin = 10 ∨
          mode = "green" ∧ pin = 11) →
        (main bits mode interval none draws iters level isOutput).trace =
            (main bits mode interval none draws 0 level isOutput).trace ++
              (List.replicate iters
                (flashEffects pin (getOptions mode interval).1.interval)).flatten ∧
          (∀ q, q ≠ pin →
            (main bits mode interval none draws iters level isOutput).level q =
              (main bits mode interval none draws 0 level isOutput).level q) ∧
          (∀ q ∈ [9, 10, 11], q ≠ pin →
            (main bits mode interval none draws iters level isOutput).level q = false)) ∧
      List.count mode ["red", "yellow", "green", "random"] = 1 ∧
      (main bits mode interval none draws iters level isOutput).status = Status.running ∧
      ∃ p ∈ [9, 10, 11], ∃ rest,
        (main bits mode interval none draws (iters + 1) level isOutput).trace =
          (main bits mode interval none draws 0 level isOutput).trace ++
            Effect.high p :: rest := by
  have hmode := ((getOptions_ok_iff mode interval).mp hacc).1
  have hst : (startup ((World.boot level isOutput).emit (Effect.rpioOpen true))).status =
      Status.running := by
    rw [startup_status]; rfl
  have hfl := runSwitch_flashes bits hbits
    { mode := mode, interval := uint8 (interval * 100) } draws iters _ hmode hst
  rw [main_of_ok bits mode interval draws iters level isOutput hacc,
    main_of_ok bits mode interval draws 0 level isOutput hacc,
    main_of_ok bits mode interval draws (iters + 1) level isOutput hacc,
    runSwitch_zero _ _ _ _ hmode, getOptions_of_ok mode interval hacc]
  refine ⟨?_, ?_, hfl.1, hfl.2⟩
  · intro pin hpin
    have hloop : runSwitch bits { mode := mode, interval := uint8 (interval * 100) } draws
        iters (startup ((World.boot level isOutput).emit (Effect.rpioOpen true))) =
        fixedLoop pin (uint8 (interval * 100)) iters
          (startup ((World.boot level isOutput).emit (Effect.rpioOpen true))) := by
      rcases hpin with ⟨rfl, rfl⟩ | ⟨rfl, rfl⟩ | ⟨rfl, rfl⟩
      · exact runSwitch_red _ _ _ _ _
      · exact runSwitch_yellow _ _ _ _ _
      · exact runSwitch_green _ _ _ _ _
    rw [hloop]
    refine ⟨fixedLoop_trace _ _ _ _, fun q hq => fixedLoop_level_other _ _ _ _ q hq, ?_⟩
    intro q hq hne
    rw [fixedLoop_level_other _ _ _ _ q hne]
    exact startup_level_low _ q hq
  · simp only [List.mem_cons, List.mem_singleton, List.not_mem_nil, or_false] at hmode
    rcases hmode with rfl | rfl | rfl | rfl <;> decide

/-- C10 at `--mode yellow --interval 2`, three iterations, every pin high at the start. -/
theorem fixed_mode_yellow_two :
    (∀ pin, (("yellow" : String) = "red" ∧ pin = 9 ∨ ("yellow" : String) = "yellow" ∧ pin = 10 ∨
          ("yellow" : String) = "green" ∧ pin = 11) →
        (main 64 "yellow" 2 none (fun _ => 0) 3 (fun _ => true) (fun _ => false)).trace =
            (main 64 "yellow" 2 none (fun _ => 0) 0 (fun _ => true) (fun _ => false)).trace ++
              (List.replicate 3
                (flashEffects pin (getOptions "yellow" 2).1.interval)).flatten ∧
          (∀ q, q ≠ pin →
            (main 64 "yellow" 2 none (fun _ => 0) 3 (fun _ => true) (fun _ => false)).level q =
              (main 64 "yellow" 2 none (fun _ => 0) 0 (fun _ => true) (fun _ => false)).level q) ∧
          (∀ q ∈ [9, 10, 11], q ≠ pin →
            (main 64 "yellow" 2 none (fun _ => 0) 3 (fun _ => true) (fun _ => false)).level q =
              false)) ∧
      List.count "yellow" ["red", "yellow", "green", "random"] = 1 ∧
      (main 64 "yellow" 2 none (fun _ => 0) 3 (fun _ => true) (fun _ => false)).status =
        Status.running ∧
      ∃ p ∈ [9, 10, 11], ∃ rest,
        (main 64 "yellow" 2 none (fun _ => 0) (3 + 1) (fun _ => true) (fun _ => false)).trace =
          (main 64 "yellow" 2 none (fun _ => 0) 0 (fun _ => true) (fun _ => false)).trace ++
            Effect.high p :: rest :=
  fixed_mode_writes_one_pin 64 "yellow" 2 (fun _ => 0) 3 (fun _ => true) (fun _ => false)
    (by decide) (by decide)

end PiLights
